import Mathlib

/-!
Verification of the email quiz service (question selection, response
classification, scheduling loop, grading fallback and persistence effects).
The Lean definitions below are shallow embeddings of the Python sources
(`email_service.py`, `grading_service.py`, `main.py`, `config.py`):
pure functions become Lean functions, timestamps are `Int` milliseconds,
Python floats are modelled as exact rationals `ℚ`, fallible external calls
(mail transport, LLM grader) become `Except`/`Option` parameters.
-/

namespace WtfGalaxy

/-! ## Python string primitives

Helpers mirroring the Python string operations used by
`EmailService.check_for_response` (substring test `in`, `str.split()`,
`str.strip()`, and the three `re.sub` cleanups). -/

/-- Substring occurrence test on character lists. -/
def listContainsSub (hay needle : List Char) : Bool :=
  hay.tails.any (fun t => needle.isPrefixOf t)

/-- Python `needle in hay` substring test. -/
def strContains (hay needle : String) : Bool :=
  listContainsSub hay.toList needle.toList

/-- Python `s.lower()` (ASCII case mapping). -/
def pyLower (s : String) : String :=
  String.mk (s.toList.map Char.toLower)

/-- Python `s.split()`: split on whitespace runs, dropping empty pieces. -/
def pySplitWs (s : String) : List (List Char) :=
  (s.toList.splitOnP (fun c => c.isWhitespace)).filter (fun w => w ≠ [])

/-- Python `s.strip()`: drop leading and trailing whitespace. -/
def pyStrip (cs : List Char) : List Char :=
  ((cs.dropWhile (fun c => c.isWhitespace)).reverse.dropWhile (fun c => c.isWhitespace)).reverse

/-- Index of the last newline character of a character list, if any. -/
def lastNewlineIdx (l : List Char) : Option Nat :=
  match l.reverse.findIdx? (fun c => c = '\n') with
  | some j => some (l.length - 1 - j)
  | none => none

/-- Embeds `re.sub(r'^>.*$', '', text, flags=re.MULTILINE)` from
`email_service.py` line 363: every line starting with a quote marker is
replaced by an empty line. -/
def stripQuoteLines (cs : List Char) : List Char :=
  List.intercalate ['\n']
    ((cs.splitOn '\n').map (fun l => match l with | '>' :: _ => [] | _ => l))

/-- Whether the regex `On .+ wrote:` (with DOTALL) matches starting at
position `i` of `cs`: literal "On " at `i`, at least one character, then
a later occurrence of " wrote:". -/
def onWroteMatchAt (cs : List Char) (i : Nat) : Bool :=
  "On ".toList.isPrefixOf (cs.drop i)
    && (List.range (cs.length)).any
        (fun j => decide (i + 4 ≤ j) && " wrote:".toList.isPrefixOf (cs.drop j))

/-- Embeds `re.sub(r'On .+ wrote:.*$', '', text, flags=re.MULTILINE | re.DOTALL)`
from `email_service.py` line 365: with DOTALL the greedy match runs from the
leftmost "On … wrote:" attribution to the end of the text, so everything from
that point on is removed. -/
def stripWroteBlock (cs : List Char) : List Char :=
  match (List.range cs.length).find? (fun i => onWroteMatchAt cs i) with
  | some i => cs.take i
  | none => cs

/-- Embeds `re.sub(r'\n\s*\n', '\n', text)` (line 367): at a newline, the
greedy `\s*` absorbs the following whitespace run up to (and including) the
last newline inside it; the whole match is replaced by a single newline and
scanning resumes after the match. The `fuel` argument only bounds the scan
structurally; every step consumes at least one character, so a fuel equal to
the length of the list (as supplied by `collapseBlankRuns`) never runs out. -/
def collapseBlankRunsAux : Nat → List Char → List Char
  | 0, _ => []
  | _, [] => []
  | fuel + 1, c :: rest =>
    if c = '\n' then
      let ws := rest.takeWhile (fun x => x.isWhitespace)
      match lastNewlineIdx ws with
      | some k => '\n' :: collapseBlankRunsAux fuel (rest.drop (k + 1))
      | none => c :: collapseBlankRunsAux fuel rest
    else c :: collapseBlankRunsAux fuel rest

/-- Run the blank-run collapse over a whole character list. -/
def collapseBlankRuns (cs : List Char) : List Char :=
  collapseBlankRunsAux cs.length cs

/-- The quote-stripping pipeline of `check_for_response`
(`email_service.py` lines 359-368): drop quoted lines, drop the
"On … wrote:" attribution block, collapse blank-line runs, then
Python `str.strip()`. -/
def cleanResponse (s : String) : String :=
  String.mk (pyStrip (collapseBlankRuns (stripWroteBlock (stripQuoteLines s.toList))))

/-! ## Messages and the response classifier (`EmailService.check_for_response`)

A Gmail message is modelled by the fields the classifier reads: its id,
its `internalDate` delivery timestamp in milliseconds, the value of its
"From" header, and the body text produced by `extract_message_text`. -/

structure GMessage where
  id : String
  internalDate : Int
  fromHeader : String
  body : String
deriving DecidableEq, Repr

/-- Feedback markers scanned for at `email_service.py` line 349. -/
def feedbackKeywords : List String :=
  ["score:", "your score:", "feedback:", "missing points:"]

/-- Embeds the feedback-echo check (lines 348-351): any marker occurring in
the first 200 characters of the extracted text, lower-cased. -/
def looksLikeFeedback (body : String) : Bool :=
  feedbackKeywords.any
    (fun k => listContainsSub ((body.toList.take 200).map Char.toLower) k.toList)

/-- Embeds the question-quote check (lines 377-393): the word set of the first
10 words of the question overlaps the cleaned response word set by more than
80 percent. -/
def overlapTooHigh (questionText : String) (responseText : String) : Bool :=
  let qwords := ((pySplitWs (pyLower questionText)).take 10).dedup
  let rwords := pySplitWs (pyLower responseText)
  decide ((((qwords.filter (fun w => rwords.contains w)).length : ℚ) / (max qwords.length 1 : ℚ)) > 8 / 10)

/-- The overlap check is wrapped in a `try`/`except: pass` that fetches the
sent question; `qt = none` models a failed fetch (check skipped), and the
check only fires for a truthy question text longer than 10 characters. -/
def overlapSkip (qt : Option String) (responseText : String) : Bool :=
  match qt with
  | some q => (q != "") && decide (10 < q.length) && overlapTooHigh q responseText
  | none => false

/-- The rejection checks of `check_for_response` (lines 302-397) bundled into
an acceptance predicate: each conjunct is the negation of one `continue`
condition, in source order — service-sent id, within the 2000 ms anti-race
buffer, sender not matching the target address (substring of the lower-cased
From header), under the 10000 ms "likely automated" threshold, feedback
markers present, cleaned body shorter than 3 characters, echo of the
question. -/
def messageAccepted (target : String) (sentTs : Int) (excl : List String)
    (qt : Option String) (m : GMessage) : Bool :=
  !(excl.contains m.id)
    && !(decide (m.internalDate - sentTs ≤ 2000))
    && strContains (pyLower m.fromHeader) (pyLower target)
    && !(decide (m.internalDate - sentTs < 10000))
    && !(looksLikeFeedback m.body)
    && !(decide ((cleanResponse m.body).length < 3))
    && !(overlapSkip qt (cleanResponse m.body))

/-- The message scan of `check_for_response` (the `for` loop at lines
302-399): each message is run through the rejection checks in order; the
first passing message's cleaned text is returned, else `none`. -/
def checkMessagesLoop (target : String) (sentTs : Int) (excl : List String)
    (qt : Option String) : List GMessage → Option String
  | [] => none
  | m :: rest =>
    if excl.contains m.id then
      checkMessagesLoop target sentTs excl qt rest
    else if m.internalDate - sentTs ≤ 2000 then
      checkMessagesLoop target sentTs excl qt rest
    else if !(strContains (pyLower m.fromHeader) (pyLower target)) then
      checkMessagesLoop target sentTs excl qt rest
    else if m.internalDate - sentTs < 10000 then
      checkMessagesLoop target sentTs excl qt rest
    else if looksLikeFeedback m.body then
      checkMessagesLoop target sentTs excl qt rest
    else
      let responseText := cleanResponse m.body
      if responseText.length < 3 then
        checkMessagesLoop target sentTs excl qt rest
      else if overlapSkip qt responseText then
        checkMessagesLoop target sentTs excl qt rest
      else
        some responseText

/-- Lines 279-280: the sent question's id is always added to the exclusion
list if not already present. -/
def resolveExclude (excl : List String) (sid : String) : List String :=
  if excl.contains sid then excl else excl ++ [sid]

/-- Embeds `EmailService.check_for_response(thread_id, sent_message_id,
sent_message_timestamp, exclude_message_ids)` (lines 262-399). `msgs` is the
thread's message list exactly as `get_thread_messages` returned it (the code
iterates it without reordering). `sentTs` is the resolved sent timestamp (the
caller in `main.py` always passes the stored one). `qt` is the question text
obtained by re-fetching the sent message inside the loop (`none` models a
fetch failure); the fetch is guarded by the truthiness of `sent_message_id`. -/
def check_for_response (target : String) (msgs : List GMessage) (sid : String)
    (sentTs : Int) (excl : List String) (qt : Option String) : Option String :=
  checkMessagesLoop target sentTs (resolveExclude excl sid)
    (if sid = "" then none else qt) msgs

/-- Stable-enough insertion step for sorting messages newest-first. -/
def insertByDateDesc (m : GMessage) : List GMessage → List GMessage
  | [] => [m]
  | n :: rest =>
    if n.internalDate ≤ m.internalDate then m :: n :: rest
    else n :: insertByDateDesc m rest

/-- Sort a message list newest-first by `internalDate`, as
`get_latest_message` does with `messages.sort(key=..., reverse=True)`. -/
def sortNewestFirst (msgs : List GMessage) : List GMessage :=
  msgs.foldr insertByDateDesc []

/-- Embeds `EmailService.get_latest_message` (lines 198-222): sort
newest-first, return the first message not excluded. -/
def get_latest_message (msgs : List GMessage) (excl : List String) : Option GMessage :=
  (sortNewestFirst msgs).find? (fun m => !(excl.contains m.id))

/-- Modelled from the spec: the classifier as the spec describes it for C1,
scanning the thread's messages in newest-first delivery-timestamp order
(the code's `check_for_response` does not sort; only `get_latest_message`
does). Defined for comparison with `check_for_response`. -/
def check_for_response_newestFirst (target : String) (msgs : List GMessage) (sid : String)
    (sentTs : Int) (excl : List String) (qt : Option String) : Option String :=
  check_for_response target (sortNewestFirst msgs) sid sentTs excl qt

/-! ## Theorems about the response classifier -/

/-- Unrolling lemma: one scan step either accepts the head message (returning
its cleaned text) or continues with the rest. -/
theorem checkMessagesLoop_cons (target : String) (sentTs : Int) (excl : List String)
    (qt : Option String) (m : GMessage) (rest : List GMessage) :
    checkMessagesLoop target sentTs excl qt (m :: rest)
      = if messageAccepted target sentTs excl qt m then some (cleanResponse m.body)
        else checkMessagesLoop target sentTs excl qt rest := by
  by_cases h1 : m.id ∈ excl
  · simp [checkMessagesLoop, messageAccepted, h1]
  · by_cases h2 : m.internalDate - sentTs ≤ 2000
    · simp [checkMessagesLoop, messageAccepted, h1, h2]
    · by_cases h3 : strContains (pyLower m.fromHeader) (pyLower target)
      · by_cases h4 : m.internalDate - sentTs < 10000
        · simp [checkMessagesLoop, messageAccepted, h1, h2, h3, h4]
        · by_cases h5 : looksLikeFeedback m.body
          · simp [checkMessagesLoop, messageAccepted, h1, h2, h3, h4, h5]
          · by_cases h6 : (cleanResponse m.body).length < 3
            · simp [checkMessagesLoop, messageAccepted, h1, h2, h3, h4, h5, h6]
            · by_cases h7 : overlapSkip qt (cleanResponse m.body)
              · simp [checkMessagesLoop, messageAccepted, h1, h2, h3, h4, h5, h6, h7]
              · simp [checkMessagesLoop, messageAccepted, h1, h2, h3, h4, h5, h6, h7]
      · simp [checkMessagesLoop, messageAccepted, h1, h2, h3]

/-- The scan returns the cleaned text of the first message, in list order,
passing every rejection check. -/
theorem checkMessagesLoop_eq_find (target : String) (sentTs : Int) (excl : List String)
    (qt : Option String) (msgs : List GMessage) :
    checkMessagesLoop target sentTs excl qt msgs
      = (msgs.find? (messageAccepted target sentTs excl qt)).map
          (fun m => cleanResponse m.body) := by
  induction msgs with
  | nil => rfl
  | cons m rest ih =>
    rw [checkMessagesLoop_cons]
    cases h : messageAccepted target sentTs excl qt m
    · simp [List.find?_cons, h, ih]
    · simp [List.find?_cons, h]

/-- C1 (amended): the response classifier considers the thread's messages in
the order the thread fetch returned them (it does not reorder them by
delivery timestamp) and returns the cleaned body of the first message in
that order that passes all rejection checks; if no message passes it returns
`none`, which is not an error. -/
theorem check_for_response_first_passing (target : String) (msgs : List GMessage)
    (sid : String) (sentTs : Int) (excl : List String) (qt : Option String) :
    check_for_response target msgs sid sentTs excl qt
      = (msgs.find? (messageAccepted target sentTs (resolveExclude excl sid)
            (if sid = "" then none else qt))).map (fun m => cleanResponse m.body) :=
  checkMessagesLoop_eq_find target sentTs (resolveExclude excl sid)
    (if sid = "" then none else qt) msgs

/-- C1 counterexample: a thread delivered oldest-first with two passing
replies. The classifier returns the first passing message in the given order
(the older one, timestamp 20000), while the claimed newest-first scan (the
behaviour of `get_latest_message`, modelled by
`check_for_response_newestFirst`) would return the newer one
(timestamp 30000). -/
theorem check_for_response_not_newest_first :
    check_for_response "user@example.com"
      [⟨"a", 20000, "user@example.com", "the answer is gravity"⟩,
       ⟨"b", 30000, "user@example.com", "the answer is dark matter"⟩]
      "q" 0 ["q"] none
      = some "the answer is gravity"
    ∧ check_for_response_newestFirst "user@example.com"
      [⟨"a", 20000, "user@example.com", "the answer is gravity"⟩,
       ⟨"b", 30000, "user@example.com", "the answer is dark matter"⟩]
      "q" 0 ["q"] none
      = some "the answer is dark matter" :=
  ⟨by decide, by decide⟩

/-- C2 counterexample: a reply from the correct sender whose content passes
every check is still rejected when it arrives 3000 ms after the send — the
10000 ms "likely automated" threshold rejects it, contradicting the claimed
acceptance; the identical body arriving 12000 ms after the send is accepted,
showing the content checks pass. -/
theorem reply_at_3000ms_rejected :
    check_for_response "user@example.com"
      [⟨"r1", 3000, "Quiz User <user@example.com>", "gravity pulls matter together"⟩]
      "q0" 0 ["q0"] none = none
    ∧ check_for_response "user@example.com"
      [⟨"r1", 12000, "Quiz User <user@example.com>", "gravity pulls matter together"⟩]
      "q0" 0 ["q0"] none = some "gravity pulls matter together" :=
  ⟨by decide, by decide⟩

/-- C2 (amended): a reply from the correct sender passing all content checks
is rejected when it arrives 1500 ms after the question was sent (within the
2000 ms anti-race buffer), is still rejected when it arrives 3000 ms after
the send (under the 10000 ms "likely automated" threshold), and is accepted
once it arrives at least 10000 ms after the send (here 12000 ms). -/
theorem reply_timing_acceptance :
    check_for_response "user@example.com"
      [⟨"r1", 1500, "Quiz User <user@example.com>", "gravity pulls matter together"⟩]
      "q0" 0 ["q0"] none = none
    ∧ check_for_response "user@example.com"
      [⟨"r1", 3000, "Quiz User <user@example.com>", "gravity pulls matter together"⟩]
      "q0" 0 ["q0"] none = none
    ∧ check_for_response "user@example.com"
      [⟨"r1", 12000, "Quiz User <user@example.com>", "gravity pulls matter together"⟩]
      "q0" 0 ["q0"] none = some "gravity pulls matter together" :=
  ⟨by decide, by decide, by decide⟩

/-! ## Session state and question selection (`main.py`)

`QState` carries the fields of the persisted session-state dictionary that
the claims touch. Times are `Int` milliseconds since the epoch (the code
stores ISO strings and compares `datetime` differences against
`timedelta`s). The score ledger is a total function from question index to
the list of recorded scores, an absent key being the empty list — the code
treats `idx not in scores` and an empty entry identically. -/

structure QState where
  current_question : Option String
  current_answer : Option String
  current_question_idx : Option Nat
  thread_id : Option String
  sent_message_id : Option String
  sent_message_timestamp : Option Int
  last_question_time : Option Int
  waiting_for_response : Bool
  recent_questions : List Nat
  sent_message_ids : List String
deriving DecidableEq, Repr

/-- Embeds `QuizService._get_average_score` (`main.py` lines 176-180):
100 when the question has no recorded scores, else the arithmetic mean. -/
def _get_average_score (scores : Nat → List ℚ) (i : Nat) : ℚ :=
  if (scores i).length = 0 then 100 else (scores i).sum / ((scores i).length : ℚ)

/-- Embeds `QuizService._record_score` (lines 169-174): append the score to
the question's entry, creating it when absent. -/
def _record_score (scores : Nat → List ℚ) (i : Nat) (score : ℚ) : Nat → List ℚ :=
  fun j => if j = i then scores j ++ [score] else scores j

/-- Python `l[-10:]`: the last `n` entries of a list, oldest evicted first. -/
def lastN (n : Nat) (l : List α) : List α :=
  l.drop (l.length - n)

/-- Candidate set of `_select_random_question` (lines 207-215): every
question id not recently asked; when that set is empty, the full bank. -/
def availableQuestions (numQuestions : Nat) (recent : List Nat) : List Nat :=
  let avail := (List.range numQuestions).filter (fun i => decide (i ∉ recent))
  if avail.isEmpty then List.range numQuestions else avail

/-- Recency-buffer update of one `_select_random_question` call (lines
207-215 and 236-238 / 282-285): when every question is recent the buffer is
first reset to empty; the freshly selected id is appended and the buffer is
truncated to its last 10 entries. `chosen` is the id the random draw
produced. -/
def selectRecentUpdate (numQuestions : Nat) (recent : List Nat) (chosen : Nat) : List Nat :=
  let avail := (List.range numQuestions).filter (fun i => decide (i ∉ recent))
  let recent1 := if avail.isEmpty then [] else recent
  lastN 10 (recent1 ++ [chosen])

/-- Sent-message-id buffer update (`_send_question` lines 367-371 and
`_grade_and_send_feedback` lines 467-472): append and keep the last 10. -/
def pushSentId (buf : List String) (x : String) : List String :=
  lastN 10 (buf ++ [x])

/-- Per-question weight of selection strategy 2 (lines 258-266):
`max(1.0, (101.0 - avg) ** 2)`. -/
def questionWeight (scores : Nat → List ℚ) (i : Nat) : ℚ :=
  max 1 ((101 - _get_average_score scores i) ^ 2)

/-- Distribution of Python `random.choice(l)`: uniform over list positions. -/
def listChoicePMF (l : List Nat) (i : Nat) : ℚ :=
  (l.count i : ℚ) / (l.length : ℚ)

/-- Distribution of `random.choices(vals, weights=probs, k=1)[0]`: the
probability of a value is the sum of the probabilities at its positions. -/
def weightedChoicePMF (pairs : List (Nat × ℚ)) (i : Nat) : ℚ :=
  ((pairs.filter (fun p => p.1 == i)).map Prod.snd).sum

/-- The selection distribution of `_select_random_question` (lines 201-295):
candidates are partitioned into unanswered (no recorded scores) and
answered; an unanswered candidate is drawn uniformly when one exists
(strategy 1, `random.choice`), otherwise each candidate gets weight
`max(1, (101 − avg)²)`, the weights are normalised into probabilities
(guarded by `total_weight > 0` with an equal-probability fallback) and one
id is drawn proportionally (strategy 2, `random.choices`). -/
def selectPMF (numQuestions : Nat) (scores : Nat → List ℚ) (recent : List Nat)
    (i : Nat) : ℚ :=
  let available := availableQuestions numQuestions recent
  let unanswered := available.filter (fun j => (scores j).isEmpty)
  if unanswered.isEmpty then
    let weights := available.map (fun j => questionWeight scores j)
    let total := weights.sum
    let probs := if 0 < total then weights.map (fun w => w / total)
                 else weights.map (fun _ => 1 / (weights.length : ℚ))
    weightedChoicePMF (available.zip probs) i
  else listChoicePMF unanswered i

/-- Embeds the stale-state repair of `QuizService._load_questions` (lines
62-74): only when the persisted recent-question buffer is non-empty and its
maximum index is out of range of the reloaded bank are the recent buffer and
the current-question fields cleared. -/
def _load_questions_staleCheck (numQuestions : Nat) (s : QState) : QState :=
  match s.recent_questions with
  | [] => s
  | q :: qs =>
    if numQuestions ≤ (q :: qs).foldl max 0 then
      { s with recent_questions := [], current_question_idx := none,
               current_question := none, current_answer := none }
    else s

/-! ## Theorems about averages, buffers and stale-state repair -/

/-- C5: the average score of a question id with no recorded score entries is
100, and for a question id with recorded scores it is the arithmetic mean of
those scores; concretely, scores [80, 60] average to 70. -/
theorem average_score_spec :
    (∀ (scores : Nat → List ℚ) (i : Nat), scores i = [] →
      _get_average_score scores i = 100)
    ∧ (∀ (scores : Nat → List ℚ) (i : Nat), scores i ≠ [] →
      _get_average_score scores i = (scores i).sum / ((scores i).length : ℚ))
    ∧ _get_average_score (fun _ => [80, 60]) 0 = 70 := by
  refine ⟨?_, ?_, ?_⟩
  · intro scores i h
    simp [_get_average_score, h]
  · intro scores i h
    simp [_get_average_score, List.length_eq_zero, h]
  · norm_num [_get_average_score]

/-- Witness for C5 at concrete ledgers. -/
theorem average_score_spec_witness :
    _get_average_score (fun _ => ([] : List ℚ)) 0 = 100
    ∧ _get_average_score (fun _ => [80, 60]) 1
      = ([80, (60 : ℚ)].sum / (([80, (60 : ℚ)].length : Nat) : ℚ)) :=
  ⟨average_score_spec.1 (fun _ => []) 0 rfl,
   average_score_spec.2.1 (fun _ => [80, 60]) 1 (by simp)⟩

/-- C9 (amended): after the bank reload, if the persisted recent-question
buffer is non-empty and contains an index out of range of the new bank, the
recent buffer and the current-question fields (index, text and answer) are
cleared rather than kept or causing a fatal error. A stale current question
id alone, with an empty or in-range recent buffer, is not detected (see the
counterexample). -/
theorem stale_recent_buffer_cleared (numQuestions : Nat) (s : QState)
    (q : Nat) (qs : List Nat) (hr : s.recent_questions = q :: qs)
    (hmax : numQuestions ≤ (q :: qs).foldl max 0) :
    (_load_questions_staleCheck numQuestions s).recent_questions = []
    ∧ (_load_questions_staleCheck numQuestions s).current_question_idx = none
    ∧ (_load_questions_staleCheck numQuestions s).current_question = none
    ∧ (_load_questions_staleCheck numQuestions s).current_answer = none := by
  have hmax2 : numQuestions ≤ List.foldl max q qs := by simpa using hmax
  simp [_load_questions_staleCheck, hr, hmax2]

/-- Witness for C9: a session whose recent buffer holds index 5 against a
3-question bank is repaired. -/
theorem stale_recent_buffer_cleared_witness :
    (_load_questions_staleCheck 3
      ⟨some "old q", some "old a", some 5, some "t", none, none, none, false, [5], []⟩).recent_questions = []
    ∧ (_load_questions_staleCheck 3
      ⟨some "old q", some "old a", some 5, some "t", none, none, none, false, [5], []⟩).current_question_idx = none
    ∧ (_load_questions_staleCheck 3
      ⟨some "old q", some "old a", some 5, some "t", none, none, none, false, [5], []⟩).current_question = none
    ∧ (_load_questions_staleCheck 3
      ⟨some "old q", some "old a", some 5, some "t", none, none, none, false, [5], []⟩).current_answer = none :=
  stale_recent_buffer_cleared 3 _ 5 [] rfl (by decide)

/-- C9 counterexample: a persisted state whose current question id 5 is out
of range of the reloaded 3-question bank but whose recent buffer is empty is
left untouched — the stale current-question id is kept, not cleared, because
the repair is keyed solely on the recent-question buffer. -/
theorem stale_current_idx_not_cleared :
    (_load_questions_staleCheck 3
      ⟨some "old q", some "old a", some 5, some "t", none, none, none, false, [], []⟩).current_question_idx
      = some 5
    ∧ 3 ≤ 5 := by
  exact ⟨rfl, by decide⟩

/-- The last-10 truncation never exceeds `n` entries. -/
theorem length_lastN_le (n : Nat) (l : List α) : (lastN n l).length ≤ n := by
  simp only [lastN, List.length_drop]
  omega

/-- Truncating, appending and truncating again agrees with truncating the
full history: the push only ever discards oldest entries. -/
theorem lastN_append_lastN (n : Nat) (l : List α) (x : α) :
    lastN n (lastN n l ++ [x]) = lastN n (l ++ [x]) := by
  simp only [lastN, List.drop_append_eq_append_drop, List.drop_drop,
    List.length_append, List.length_drop, List.length_cons, List.length_nil]
  congr 2 <;> omega

/-- Folding the sent-id push from a truncated start tracks the full history. -/
theorem foldl_pushSentId (xs : List String) :
    ∀ hist : List String,
      List.foldl pushSentId (lastN 10 hist) xs = lastN 10 (hist ++ xs) := by
  induction xs with
  | nil => intro hist; simp
  | cons x xs ih =>
    intro hist
    have h1 : pushSentId (lastN 10 hist) x = lastN 10 (hist ++ [x]) :=
      lastN_append_lastN 10 hist x
    rw [List.foldl_cons, h1]
    have h2 := ih (hist ++ [x])
    simpa using h2

/-- For a bank of more than 10 questions and a recency buffer of at most 10
entries, some question id is always non-recent. -/
theorem avail_ne_nil_of_large (numQuestions : Nat) (recent : List Nat)
    (hq : 11 ≤ numQuestions) (hlen : recent.length ≤ 10) :
    (List.range numQuestions).filter (fun i => decide (i ∉ recent)) ≠ [] := by
  intro hnil
  have hsub : Finset.range numQuestions ⊆ recent.toFinset := by
    intro i hi
    have hi2 : i ∈ List.range numQuestions := by
      simpa [List.mem_range] using Finset.mem_range.mp hi
    have h3 := List.filter_eq_nil_iff.mp hnil i hi2
    simp only [decide_eq_true_eq, not_not] at h3
    simpa [List.mem_toFinset] using h3
  have hcard := Finset.card_le_card hsub
  have h1 : (Finset.range numQuestions).card = numQuestions := Finset.card_range numQuestions
  have h2 : recent.toFinset.card ≤ recent.length := List.toFinset_card_le recent
  omega

/-- When the candidate filter cannot come up empty, the recency update is a
plain truncating push. -/
theorem selectRecentUpdate_eq_push (numQuestions : Nat) (recent : List Nat) (chosen : Nat)
    (hq : 11 ≤ numQuestions) (hlen : recent.length ≤ 10) :
    selectRecentUpdate numQuestions recent chosen = lastN 10 (recent ++ [chosen]) := by
  have h := avail_ne_nil_of_large numQuestions recent hq hlen
  have h2 : ((List.range numQuestions).filter (fun i => decide (i ∉ recent))).isEmpty = false :=
    List.isEmpty_eq_false.mpr h
  simp only [selectRecentUpdate, h2]
  simp

/-- Folding selection updates on a large bank from a truncated start tracks
the full selection history. -/
theorem foldl_selectRecentUpdate (numQuestions : Nat) (hq : 11 ≤ numQuestions)
    (sels : List Nat) :
    ∀ hist : List Nat,
      List.foldl (selectRecentUpdate numQuestions) (lastN 10 hist) sels
        = lastN 10 (hist ++ sels) := by
  induction sels with
  | nil => intro hist; simp
  | cons x xs ih =>
    intro hist
    have hlen : (lastN 10 hist).length ≤ 10 := length_lastN_le 10 hist
    have h1 : selectRecentUpdate numQuestions (lastN 10 hist) x
        = lastN 10 (lastN 10 hist ++ [x]) :=
      selectRecentUpdate_eq_push numQuestions (lastN 10 hist) x hq hlen
    rw [List.foldl_cons, h1, lastN_append_lastN]
    have h2 := ih (hist ++ [x])
    simpa using h2

/-- C6 (amended): the recent-question-id buffer and the sent-message-id
buffer each hold at most 10 entries and evict oldest-first; after any
sequence of appended sent ids the sent-id buffer equals the last 10 ids in
order, and after any sequence of selections on a bank of more than 10
questions (so that the candidate filter never empties) the recency buffer
equals the last 10 selected ids in order. When every question has become
recent, the recency buffer is instead reset before the new id is appended
(see the counterexample). -/
theorem bounded_buffers :
    (∀ (numQuestions : Nat) (recent : List Nat) (chosen : Nat),
      (selectRecentUpdate numQuestions recent chosen).length ≤ 10)
    ∧ (∀ (buf : List String) (x : String), (pushSentId buf x).length ≤ 10)
    ∧ (∀ xs : List String, List.foldl pushSentId [] xs = lastN 10 xs)
    ∧ (∀ numQuestions : Nat, 11 ≤ numQuestions →
        ∀ sels : List Nat,
          List.foldl (selectRecentUpdate numQuestions) [] sels = lastN 10 sels) := by
  refine ⟨?_, ?_, ?_, ?_⟩
  · intro nq r c
    unfold selectRecentUpdate
    exact length_lastN_le 10 _
  · intro buf x
    exact length_lastN_le 10 _
  · intro xs
    have h := foldl_pushSentId xs []
    simpa using h
  · intro nq hnq sels
    have h := foldl_selectRecentUpdate nq hnq sels []
    simpa using h

/-- Witness for C6 on a 12-question bank and three selections. -/
theorem bounded_buffers_witness :
    List.foldl (selectRecentUpdate 12) [] [0, 1, 2] = lastN 10 [0, 1, 2] :=
  bounded_buffers.2.2.2 12 (by decide) [0, 1, 2]

/-- C6 counterexample: on a single-question bank the only selectable id is 0
in both draws; after two selections the recency buffer is [0] — the
exhaustion reset cleared it before the second append — whereas the last 10
selected ids in order are [0, 0]. -/
theorem recency_buffer_not_last_ten :
    List.foldl (selectRecentUpdate 1) [] [0, 0] = [0]
    ∧ lastN 10 [0, 0] = [0, 0]
    ∧ List.foldl (selectRecentUpdate 1) [] [0, 0] ≠ lastN 10 [0, 0] :=
  ⟨by decide, by decide, by decide⟩

/-- Positivity of the total weight: every per-question weight is at least 1
and the candidate list is non-empty. -/
theorem sum_weights_pos (l : List Nat) (f : Nat → ℚ) (hl : l ≠ [])
    (hf : ∀ x ∈ l, 1 ≤ f x) : 0 < (l.map f).sum := by
  cases l with
  | nil => exact absurd rfl hl
  | cons a t =>
    have h1 : 1 ≤ f a := hf a (by simp)
    have h2 : 0 ≤ (t.map f).sum := by
      refine List.sum_nonneg ?_
      intro x hx
      rcases List.mem_map.mp hx with ⟨y, hy, rfl⟩
      have h3 := hf y (by simp [hy])
      linarith
    simp only [List.map_cons, List.sum_cons]
    linarith

/-- Zipping a list with its own image collects the graph pairs. -/
theorem zip_self_map (l : List α) (g : α → β) :
    l.zip (l.map g) = l.map (fun j => (j, g j)) := by
  induction l with
  | nil => rfl
  | cons a t ih => simp [ih]

/-- Drawing from a key-value list built over distinct keys gives exactly the
value at the key. -/
theorem weightedChoicePMF_map (l : List Nat) (g : Nat → ℚ) (i : Nat) (hn : l.Nodup) :
    weightedChoicePMF (l.map (fun j => (j, g j))) i = if i ∈ l then g i else 0 := by
  induction l with
  | nil => simp [weightedChoicePMF]
  | cons a t ih =>
    rcases List.nodup_cons.mp hn with ⟨ha, ht⟩
    by_cases hia : i = a
    · subst hia
      have hfil : List.filter (fun p => p.1 == i) (t.map (fun j => (j, g j))) = [] := by
        refine List.filter_eq_nil_iff.mpr ?_
        intro p hp
        rcases List.mem_map.mp hp with ⟨y, hy, rfl⟩
        simp only [beq_iff_eq]
        intro h
        exact ha (h ▸ hy)
      simp [weightedChoicePMF, List.filter_cons, hfil]
    · have hai : (a == i) = false := by
        simp [beq_eq_false_iff_ne]
        exact fun h => hia h.symm
      have h2 := ih ht
      simp only [weightedChoicePMF, List.map_cons, List.filter_cons, hai] at h2 ⊢
      simp only [Bool.false_eq_true, if_false] at h2 ⊢
      rw [h2]
      simp [List.mem_cons, hia]

/-- C4: on a selection call whose candidate set (the bank minus the recent
buffer) is non-empty: when some candidate has no recorded scores, the id is
drawn uniformly from the unanswered candidates (probability `1/n` inside,
0 outside); otherwise the id is drawn from the (all answered) candidates
with probability `weight(id) / total`, where
`weight(id) = max(1, (101 − average_score(id))²)`. -/
theorem select_distribution (numQuestions : Nat) (scores : Nat → List ℚ) (recent : List Nat)
    (hne : (List.range numQuestions).filter (fun i => decide (i ∉ recent)) ≠ []) :
    ((availableQuestions numQuestions recent).filter (fun j => (scores j).isEmpty) ≠ [] →
      ∀ i, selectPMF numQuestions scores recent i =
        if i ∈ (availableQuestions numQuestions recent).filter (fun j => (scores j).isEmpty)
        then 1 / ((((availableQuestions numQuestions recent).filter
              (fun j => (scores j).isEmpty)).length : Nat) : ℚ)
        else 0)
    ∧ ((availableQuestions numQuestions recent).filter (fun j => (scores j).isEmpty) = [] →
      ∀ i, selectPMF numQuestions scores recent i =
        if i ∈ availableQuestions numQuestions recent
        then questionWeight scores i
              / ((availableQuestions numQuestions recent).map
                  (fun j => questionWeight scores j)).sum
        else 0) := by
  have hF : ((List.range numQuestions).filter (fun i => decide (i ∉ recent))).isEmpty = false :=
    List.isEmpty_eq_false.mpr hne
  have havail : availableQuestions numQuestions recent
      = (List.range numQuestions).filter (fun i => decide (i ∉ recent)) := by
    simp only [availableQuestions, hF]
    simp
  have hnodup : (availableQuestions numQuestions recent).Nodup := by
    rw [havail]
    exact (List.nodup_range numQuestions).filter _
  constructor
  · intro hu i
    have hUne : ((availableQuestions numQuestions recent).filter
        (fun j => (scores j).isEmpty)).isEmpty = false := List.isEmpty_eq_false.mpr hu
    have hUnodup : ((availableQuestions numQuestions recent).filter
        (fun j => (scores j).isEmpty)).Nodup := hnodup.filter _
    simp only [selectPMF, hUne, Bool.false_eq_true, if_false]
    by_cases hi : i ∈ (availableQuestions numQuestions recent).filter
        (fun j => (scores j).isEmpty)
    · have hc := List.count_eq_one_of_mem hUnodup hi
      simp [listChoicePMF, hc, hi]
    · have hc := List.count_eq_zero_of_not_mem hi
      simp [listChoicePMF, hc, hi]
  · intro hu i
    have hUe : ((availableQuestions numQuestions recent).filter
        (fun j => (scores j).isEmpty)).isEmpty = true := List.isEmpty_iff.mpr hu
    have hAne : availableQuestions numQuestions recent ≠ [] := by
      rw [havail]
      exact hne
    have htot : 0 < ((availableQuestions numQuestions recent).map
        (fun j => questionWeight scores j)).sum := by
      refine sum_weights_pos _ _ hAne ?_
      intro x hx
      exact le_max_left 1 _
    simp only [selectPMF, hUe, if_true]
    rw [if_pos htot, List.map_map, zip_self_map, weightedChoicePMF_map _ _ i hnodup]
    simp [Function.comp]

/-- Witness for C4 on a two-question bank with no recorded scores: both
candidates are unanswered, so the draw is uniform over them. -/
theorem select_distribution_witness :
    ((List.range 2).filter (fun i => decide (i ∉ ([] : List Nat))) ≠ [])
    ∧ ((availableQuestions 2 []).filter
        (fun j => (((fun _ => []) : Nat → List ℚ) j).isEmpty) ≠ [])
    ∧ selectPMF 2 (fun _ => []) [] 0 =
        (if 0 ∈ (availableQuestions 2 []).filter
              (fun j => (((fun _ => []) : Nat → List ℚ) j).isEmpty)
        then 1 / ((((availableQuestions 2 []).filter
              (fun j => (((fun _ => []) : Nat → List ℚ) j).isEmpty)).length : Nat) : ℚ)
        else 0) :=
  ⟨by decide, by decide,
    (select_distribution 2 (fun _ => []) [] (by decide)).1 (by decide) 0⟩

/-! ## Grading service (`grading_service.py`)

The grader's reply is parsed by `json.loads` into a dictionary; `JVal` and
`JDict` model the JSON values and the dictionary (an association list in
insertion order; the parsed top level never nests further dictionaries in
what the code reads, so object values are not needed). -/

inductive JVal where
  | num (q : ℚ)
  | str (s : String)
  | arr (l : List JVal)
  | boolean (b : Bool)
  | null

abbrev JDict := List (String × JVal)

/-- Python `k in d`. -/
def jHasKey (d : JDict) (k : String) : Bool :=
  d.any (fun p => p.1 == k)

/-- Python `d[k] = v`: overwrite in place, or append a new key. -/
def jSet (d : JDict) (k : String) (v : JVal) : JDict :=
  if jHasKey d k then d.map (fun p => if p.1 == k then (k, v) else p)
  else d ++ [(k, v)]

/-- Python `d.get(k)` as an option. -/
def jLookup (d : JDict) (k : String) : Option JVal :=
  (d.find? (fun p => p.1 == k)).map Prod.snd

/-- Numeric content of a JSON value (the grader's scores are numbers). -/
def jNum (v : JVal) (dflt : ℚ) : ℚ :=
  match v with
  | JVal.num q => q
  | _ => dflt

/-- Default feedback inserted at `grading_service.py` line 187. -/
def defaultFeedback : String := "Unable to generate detailed feedback."

/-- The fixed fallback dictionary of the `except` handler
(`grading_service.py` lines 193-199), with the exception text interpolated
into the feedback. -/
def gradeErrorDict (e : String) : JDict :=
  [("score", JVal.num 50),
   ("feedback", JVal.str ("Error grading response: " ++ e ++ ". Please try again.")),
   ("missing_points", JVal.arr [])]

/-- Embeds `GradingService.grade_response` (lines 169-199). The model call,
the markdown-fence stripping and `json.loads` are fallible external steps,
modelled together by `outcome`: `.ok d` is the successfully parsed
dictionary, `.error e` any exception raised on the way (API failure or parse
failure; Python interpolates its message into the fallback feedback). On
success the three required keys are filled in when missing; on failure the
fixed fallback dictionary is returned. -/
def grade_response (outcome : Except String JDict) : JDict :=
  match outcome with
  | Except.error e => gradeErrorDict e
  | Except.ok result =>
    let r1 := if jHasKey result "score" then result
              else jSet result "score" (JVal.num 50)
    let r2 := if jHasKey r1 "feedback" then r1
              else jSet r1 "feedback" (JVal.str defaultFeedback)
    if jHasKey r2 "missing_points" then r2
    else jSet r2 "missing_points" (JVal.arr [])

/-! ## Theorems about the grading fallback -/

/-- Overwriting the value at key `k` does not change which keys a dictionary
holds. -/
theorem jHasKey_overwrite (d : JDict) (k k' : String) (v : JVal) :
    jHasKey (d.map (fun p => if p.1 == k then (k, v) else p)) k' = jHasKey d k' := by
  induction d with
  | nil => rfl
  | cons p t ih =>
    by_cases hp : p.1 == k
    · have hpk : p.1 = k := by simpa [beq_iff_eq] using hp
      simp [jHasKey, List.any_cons, hp, hpk] at ih ⊢
      rw [ih]
    · simp [jHasKey, List.any_cons, hp] at ih ⊢
      rw [if_neg (by simpa using hp), ih]

/-- Overwriting the value at key `k` does not change lookups of other
keys. -/
theorem jLookup_overwrite_other (d : JDict) (k k' : String) (v : JVal)
    (hne : (k == k') = false) :
    jLookup (d.map (fun p => if p.1 == k then (k, v) else p)) k' = jLookup d k' := by
  induction d with
  | nil => rfl
  | cons p t ih =>
    by_cases hp : (p.1 == k) = true
    · have hpk : p.1 = k := by simpa [beq_iff_eq] using hp
      have hp' : (p.1 == k') = false := by rw [hpk]; exact hne
      simp only [jLookup, List.map_cons, hp, if_true, List.find?_cons, hne, hp'] at ih ⊢
      exact ih
    · have hpb : (p.1 == k) = false := by simpa using hp
      simp only [jLookup, List.map_cons, hpb, Bool.false_eq_true, if_false,
        List.find?_cons] at ih ⊢
      cases hpk : (p.1 == k')
      · simpa [hpk] using ih
      · simp [hpk]

/-- After a Python dict assignment the assigned key is present. -/
theorem jHasKey_jSet_self (d : JDict) (k : String) (v : JVal) :
    jHasKey (jSet d k v) k = true := by
  unfold jSet
  by_cases h : jHasKey d k
  · rw [if_pos h, jHasKey_overwrite]
    exact h
  · rw [if_neg h]
    simp [jHasKey, List.any_append]

/-- A Python dict assignment leaves the presence of other keys unchanged. -/
theorem jHasKey_jSet_other (d : JDict) (k k' : String) (v : JVal)
    (hne : (k == k') = false) :
    jHasKey (jSet d k v) k' = jHasKey d k' := by
  unfold jSet
  by_cases h : jHasKey d k
  · rw [if_pos h, jHasKey_overwrite]
  · rw [if_neg h]
    simp [jHasKey, List.any_append, List.any_cons, hne]

/-- Assigning an absent key appends it, so a lookup finds the new value. -/
theorem jLookup_jSet_new (d : JDict) (k : String) (v : JVal)
    (h : jHasKey d k = false) :
    jLookup (jSet d k v) k = some v := by
  unfold jSet
  rw [if_neg (by simp [h])]
  unfold jLookup
  have hnone : List.find? (fun p => p.1 == k) d = none := by
    rw [List.find?_eq_none]
    intro p hp hpk
    have : d.any (fun p => p.1 == k) = true := List.any_eq_true.mpr ⟨p, hp, hpk⟩
    rw [jHasKey] at h
    simp [this] at h
  rw [List.find?_append, hnone]
  simp

/-- A Python dict assignment leaves lookups of other keys unchanged. -/
theorem jLookup_jSet_other (d : JDict) (k k' : String) (v : JVal)
    (hne : (k == k') = false) :
    jLookup (jSet d k v) k' = jLookup d k' := by
  unfold jSet
  by_cases h : jHasKey d k
  · rw [if_pos h]
    exact jLookup_overwrite_other d k k' v hne
  · rw [if_neg h]
    unfold jLookup
    rw [List.find?_append]
    cases hfind : List.find? (fun p => p.1 == k') d
    · simp [hne]
    · simp

/-- C10: `grade_response` is total — every outcome of the fallible steps
yields a dictionary containing all three of the keys `score`, `feedback` and
`missing_points`; when the model call or the parse fails the result is
exactly the fallback dictionary with score 50, an error-message feedback and
an empty missing-points list; when parsing succeeds but a key is absent,
that key is filled with its default (50, the default feedback string, the
empty list). -/
theorem grade_response_total (outcome : Except String JDict) :
    (jHasKey (grade_response outcome) "score" = true
      ∧ jHasKey (grade_response outcome) "feedback" = true
      ∧ jHasKey (grade_response outcome) "missing_points" = true)
    ∧ (∀ e, outcome = Except.error e → grade_response outcome = gradeErrorDict e)
    ∧ (∀ d, outcome = Except.ok d →
        (jHasKey d "score" = false →
          jLookup (grade_response outcome) "score" = some (JVal.num 50))
        ∧ (jHasKey d "feedback" = false →
          jLookup (grade_response outcome) "feedback" = some (JVal.str defaultFeedback))
        ∧ (jHasKey d "missing_points" = false →
          jLookup (grade_response outcome) "missing_points" = some (JVal.arr []))) := by
  cases outcome with
  | error e =>
    refine ⟨⟨rfl, rfl, rfl⟩, ?_, ?_⟩
    · intro e' h
      cases h
      rfl
    · intro d h
      cases h
  | ok d =>
    have hsf : (("score" : String) == "feedback") = false := by decide
    have hsm : (("score" : String) == "missing_points") = false := by decide
    have hfm : (("feedback" : String) == "missing_points") = false := by decide
    have hfs : (("feedback" : String) == "score") = false := by decide
    have hms : (("missing_points" : String) == "score") = false := by decide
    have hmf : (("missing_points" : String) == "feedback") = false := by decide
    simp only [grade_response]
    constructor
    · -- all three keys present in the final dictionary
      set r1 := if jHasKey d "score" then d else jSet d "score" (JVal.num 50) with hr1
      set r2 := if jHasKey r1 "feedback" then r1
                else jSet r1 "feedback" (JVal.str defaultFeedback) with hr2
      have h1 : jHasKey r1 "score" = true := by
        rw [hr1]
        by_cases h : jHasKey d "score"
        · rw [if_pos h]; exact h
        · rw [if_neg h]; exact jHasKey_jSet_self d "score" (JVal.num 50)
      have h2s : jHasKey r2 "score" = true := by
        rw [hr2]
        by_cases h : jHasKey r1 "feedback"
        · rw [if_pos h]; exact h1
        · rw [if_neg h]
          rw [jHasKey_jSet_other r1 "feedback" "score" _ hfs]
          exact h1
      have h2f : jHasKey r2 "feedback" = true := by
        rw [hr2]
        by_cases h : jHasKey r1 "feedback"
        · rw [if_pos h]; exact h
        · rw [if_neg h]; exact jHasKey_jSet_self r1 "feedback" (JVal.str defaultFeedback)
      refine ⟨?_, ?_, ?_⟩
      · by_cases h : jHasKey r2 "missing_points"
        · rw [if_pos h]; exact h2s
        · rw [if_neg h]
          rw [jHasKey_jSet_other r2 "missing_points" "score" _ hms]
          exact h2s
      · by_cases h : jHasKey r2 "missing_points"
        · rw [if_pos h]; exact h2f
        · rw [if_neg h]
          rw [jHasKey_jSet_other r2 "missing_points" "feedback" _ hmf]
          exact h2f
      · by_cases h : jHasKey r2 "missing_points"
        · rw [if_pos h]; exact h
        · rw [if_neg h]; exact jHasKey_jSet_self r2 "missing_points" (JVal.arr [])
    · refine ⟨?_, ?_⟩
      · intro e h
        cases h
      intro d' h
      cases h
      set r1 := if jHasKey d "score" then d else jSet d "score" (JVal.num 50) with hr1
      set r2 := if jHasKey r1 "feedback" then r1
                else jSet r1 "feedback" (JVal.str defaultFeedback) with hr2
      have h1 : jHasKey r1 "score" = true ∧
          (jHasKey d "score" = false →
            jLookup r1 "score" = some (JVal.num 50)) := by
        rw [hr1]
        by_cases h : jHasKey d "score"
        · rw [if_pos h]
          exact ⟨h, fun hc => by rw [h] at hc; cases hc⟩
        · rw [if_neg h]
          refine ⟨jHasKey_jSet_self d "score" (JVal.num 50), fun _ => ?_⟩
          exact jLookup_jSet_new d "score" (JVal.num 50) (by simpa using h)
      refine ⟨?_, ?_, ?_⟩
      · -- score default survives to the end
        intro hc
        have hv1 : jLookup r1 "score" = some (JVal.num 50) := h1.2 hc
        have hv2 : jLookup r2 "score" = some (JVal.num 50) := by
          rw [hr2]
          by_cases h : jHasKey r1 "feedback"
          · rw [if_pos h]; exact hv1
          · rw [if_neg h]
            rw [jLookup_jSet_other r1 "feedback" "score" _ hfs]
            exact hv1
        by_cases h : jHasKey r2 "missing_points"
        · rw [if_pos h]; exact hv2
        · rw [if_neg h]
          rw [jLookup_jSet_other r2 "missing_points" "score" _ hms]
          exact hv2
      · -- feedback default survives to the end
        intro hc
        have hk1 : jHasKey r1 "feedback" = false := by
          rw [hr1]
          by_cases h : jHasKey d "score"
          · rw [if_pos h]; exact hc
          · rw [if_neg h]
            rw [jHasKey_jSet_other d "score" "feedback" _ hsf]
            exact hc
        have hv2 : jLookup r2 "feedback" = some (JVal.str defaultFeedback) := by
          rw [hr2, if_neg (by simp [hk1])]
          exact jLookup_jSet_new r1 "feedback" (JVal.str defaultFeedback) hk1
        by_cases h : jHasKey r2 "missing_points"
        · rw [if_pos h]; exact hv2
        · rw [if_neg h]
          rw [jLookup_jSet_other r2 "missing_points" "feedback" _ hmf]
          exact hv2
      · -- missing_points default
        intro hc
        have hk1 : jHasKey r1 "missing_points" = false := by
          rw [hr1]
          by_cases h : jHasKey d "score"
          · rw [if_pos h]; exact hc
          · rw [if_neg h]
            rw [jHasKey_jSet_other d "score" "missing_points" _ hsm]
            exact hc
        have hk2 : jHasKey r2 "missing_points" = false := by
          rw [hr2]
          by_cases h : jHasKey r1 "feedback"
          · rw [if_pos h]; exact hk1
          · rw [if_neg h]
            rw [jHasKey_jSet_other r1 "feedback" "missing_points" _ hfm]
            exact hk1
        rw [if_neg (by simp [hk2])]
        exact jLookup_jSet_new r2 "missing_points" (JVal.arr []) hk2

/-- Witness for C10: a failing grader call yields exactly the fallback
dictionary, and a parse result lacking every key is filled with all three
defaults. -/
theorem grade_response_total_witness :
    grade_response (Except.error "boom") = gradeErrorDict "boom"
    ∧ jLookup (grade_response (Except.ok [("other", JVal.null)])) "score"
        = some (JVal.num 50)
    ∧ jLookup (grade_response (Except.ok [("other", JVal.null)])) "feedback"
        = some (JVal.str defaultFeedback)
    ∧ jLookup (grade_response (Except.ok [("other", JVal.null)])) "missing_points"
        = some (JVal.arr []) :=
  ⟨(grade_response_total (Except.error "boom")).2.1 "boom" rfl,
   ((grade_response_total (Except.ok [("other", JVal.null)])).2.2
      [("other", JVal.null)] rfl).1 (by rfl),
   ((grade_response_total (Except.ok [("other", JVal.null)])).2.2
      [("other", JVal.null)] rfl).2.1 (by rfl),
   ((grade_response_total (Except.ok [("other", JVal.null)])).2.2
      [("other", JVal.null)] rfl).2.2 (by rfl)⟩

/-! ## Grading round and main loop (`main.py`) -/

/-- Text rendering of a JSON value in feedback bodies, standing in for
Python string interpolation; no claim depends on the rendered text. -/
def showJVal (v : JVal) : String :=
  match v with
  | JVal.num q => toString q.num ++ (if q.den = 1 then "" else "/" ++ toString q.den)
  | JVal.str s => s
  | _ => ""

/-- Embeds `GradingService.format_feedback_message` (lines 201-234): score
line, feedback line, numbered missing points (or a congratulation), then the
correct answer under a separator when provided. -/
def format_feedback_message (grade_result : JDict) (correct_answer : Option String) : String :=
  let score := (jLookup grade_result "score").getD (JVal.num 0)
  let feedback := (jLookup grade_result "feedback").getD (JVal.str "")
  let missing_points :=
    match (jLookup grade_result "missing_points").getD (JVal.arr []) with
    | JVal.arr l => l
    | _ => []
  let base := "Your Score: " ++ showJVal score ++ "/100\n\n"
    ++ "Feedback: " ++ showJVal feedback ++ "\n\n"
  let withMissing :=
    if missing_points.isEmpty then
      base ++ "Great job! You covered all the key points.\n\n"
    else
      base ++ "Missing Points:\n"
        ++ String.join (missing_points.enum.map
            (fun p => toString (p.1 + 1) ++ ". " ++ showJVal p.2 ++ "\n"))
        ++ "\n"
  match correct_answer with
  | some ca =>
    withMissing ++ String.mk (List.replicate 60 '=') ++ "\n" ++ "Correct Answer:\n"
      ++ String.mk (List.replicate 60 '=') ++ "\n" ++ ca ++ "\n"
  | none => withMissing

/-- One entry of the progress log (`QuizService._record_progress`,
lines 155-167). -/
structure ProgressEntry where
  timestamp : String
  question_idx : Option Nat
  question : String
  user_response : String
  feedback : String
  score : ℚ
deriving DecidableEq, Repr

/-- The in-memory service data `_grade_and_send_feedback` touches: the
session state, the score ledger and the progress history. -/
structure ServiceData where
  state : QState
  scores : Nat → List ℚ
  progress : List ProgressEntry

/-- Embeds `QuizService._grade_and_send_feedback` (lines 424-499). External
effects are parameters: `graderOutcome` is the grader call (the `try` block
catches any exception it raises), `sendOutcome` the feedback delivery
(`send_feedback`), yielding the feedback message id on success, and `nowIso`
the timestamp written into the progress entry. With a missing question or
answer the method only logs and returns; on an exception inside the `try`
block the `except` handler clears only the waiting flag; on full success the
score is recorded (when the question index is known), the feedback id joins
the sent-id buffer, a progress entry is appended and the current-question
fields are cleared. -/
def _grade_and_send_feedback (d : ServiceData) (user_response : String)
    (graderOutcome : Except String JDict) (sendOutcome : Except String String)
    (nowIso : String) : ServiceData :=
  match d.state.current_question, d.state.current_answer with
  | some q, some ca =>
    match graderOutcome with
    | Except.error _ => { d with state := { d.state with waiting_for_response := false } }
    | Except.ok grade_result =>
      let score := jNum ((jLookup grade_result "score").getD (JVal.num 0)) 0
      let d1 :=
        match d.state.current_question_idx with
        | some idx => { d with scores := _record_score d.scores idx score }
        | none => d
      let feedback_message := format_feedback_message grade_result (some ca)
      match sendOutcome with
      | Except.error _ => { d1 with state := { d1.state with waiting_for_response := false } }
      | Except.ok fid =>
        let d2 := { d1 with
          state := { d1.state with sent_message_ids := pushSentId d1.state.sent_message_ids fid } }
        let d3 := { d2 with
          progress := d2.progress
            ++ [(⟨nowIso, d.state.current_question_idx, q, user_response,
                  feedback_message, score⟩ : ProgressEntry)] }
        { d3 with state := { d3.state with
            waiting_for_response := false, current_question := none,
            current_answer := none, current_question_idx := none,
            sent_message_id := none, sent_message_timestamp := none } }
  | _, _ => d

/-- Embeds `QuizService._should_send_new_question` (lines 297-320): send
immediately when nothing was ever sent or the previous delivery left no sent
id, otherwise once the configured interval has elapsed. -/
def _should_send_new_question (s : QState) (now : Int) (intervalMinutes : Int) : Bool :=
  match s.last_question_time with
  | none => true
  | some t =>
    if s.sent_message_id.isNone then true
    else decide (intervalMinutes * 60000 ≤ now - t)

/-- Embeds `QuizService._send_question` (lines 322-387). The selection has
already mutated the recency buffer (`selectRecentUpdate`) before the
transport call; `chosen` is the drawn id with its question and answer texts,
`sendResult` the transport call (message id and thread id on success),
`tsFetch` the `internalDate` lookup of the sent message (`none` models its
failure, falling back to the current time). On delivery failure the waiting
flag and sent id are cleared so the next iteration retries. -/
def _send_question (numQuestions : Nat) (d : ServiceData)
    (chosen : Nat × String × String)
    (sendResult : Except String (String × String)) (tsFetch : Option Int)
    (now : Int) : ServiceData :=
  let st0 := { d.state with
    recent_questions := selectRecentUpdate numQuestions d.state.recent_questions chosen.1 }
  match sendResult with
  | Except.error _ =>
    { d with state := { st0 with waiting_for_response := false, sent_message_id := none } }
  | Except.ok (mid, tid) =>
    let ts := tsFetch.getD now
    { d with state := { st0 with
        current_question := some chosen.2.1,
        current_answer := some chosen.2.2,
        current_question_idx := some chosen.1,
        sent_message_id := some mid,
        sent_message_timestamp := some ts,
        thread_id := some tid,
        last_question_time := some now,
        waiting_for_response := true,
        sent_message_ids := pushSentId st0.sent_message_ids mid } }

/-- One iteration of the main loop `QuizService.run` (lines 520-550), with
the external outcomes as parameters: `chosen`, `sendResult` and `tsFetch`
feed a send when one is due; `response` is the classifier's verdict for this
poll; `graderOutcome`, `fbSend` and `nowIso` feed grading. The returned
`Bool` records whether the iteration reached the trailing sleep — it is
`false` exactly on the timeout path, whose `continue` re-enters the loop
immediately. -/
def runIteration (numQuestions : Nat) (d : ServiceData) (now : Int)
    (intervalMinutes : Int) (chosen : Nat × String × String)
    (sendResult : Except String (String × String)) (tsFetch : Option Int)
    (response : Option String) (graderOutcome : Except String JDict)
    (fbSend : Except String String) (nowIso : String) : ServiceData × Bool :=
  let d1 :=
    if !d.state.waiting_for_response
        && _should_send_new_question d.state now intervalMinutes then
      _send_question numQuestions d chosen sendResult tsFetch now
    else d
  if d1.state.waiting_for_response then
    match d1.state.last_question_time with
    | some t =>
      if intervalMinutes * 2 * 60000 ≤ now - t then
        ({ d1 with state := { d1.state with
            waiting_for_response := false, sent_message_id := none } }, false)
      else
        match response with
        | some r => (_grade_and_send_feedback d1 r graderOutcome fbSend nowIso, true)
        | none => (d1, true)
    | none =>
      match response with
      | some r => (_grade_and_send_feedback d1 r graderOutcome fbSend nowIso, true)
      | none => (d1, true)
  else (d1, true)

/-- C3: in every graded round whose grader call raises an exception, the
loop catches it, records no score (the ledger is unchanged and no progress
entry is appended — the round is lost) and returns to IDLE
(`waiting_for_response` becomes false). -/
theorem grading_failure_skips_round (d : ServiceData) (user_response : String)
    (e : String) (sendOutcome : Except String String) (nowIso : String)
    (q ca : String) (hq : d.state.current_question = some q)
    (ha : d.state.current_answer = some ca) :
    (_grade_and_send_feedback d user_response (Except.error e) sendOutcome nowIso).scores
        = d.scores
    ∧ (_grade_and_send_feedback d user_response (Except.error e) sendOutcome
        nowIso).state.waiting_for_response = false
    ∧ (_grade_and_send_feedback d user_response (Except.error e) sendOutcome
        nowIso).progress = d.progress := by
  simp [_grade_and_send_feedback, hq, ha]

/-- Witness for C3: a waiting round whose grader raises keeps its empty
ledger and drops back to not waiting. -/
theorem grading_failure_skips_round_witness :
    (_grade_and_send_feedback
        ⟨⟨some "q?", some "a!", some 0, some "t", some "m", some 0, some 0, true, [], []⟩,
          fun _ => [], []⟩
        "resp" (Except.error "boom") (Except.ok "fid") "2026-01-01").scores
      = (fun _ => [])
    ∧ (_grade_and_send_feedback
        ⟨⟨some "q?", some "a!", some 0, some "t", some "m", some 0, some 0, true, [], []⟩,
          fun _ => [], []⟩
        "resp" (Except.error "boom") (Except.ok "fid") "2026-01-01").state.waiting_for_response
      = false
    ∧ (_grade_and_send_feedback
        ⟨⟨some "q?", some "a!", some 0, some "t", some "m", some 0, some 0, true, [], []⟩,
          fun _ => [], []⟩
        "resp" (Except.error "boom") (Except.ok "fid") "2026-01-01").progress = [] :=
  grading_failure_skips_round _ "resp" "boom" (Except.ok "fid") "2026-01-01"
    "q?" "a!" rfl rfl

/-- C7: a WAITING state whose elapsed time since the last send is at least
twice the question interval abandons the wait within one loop iteration:
`waiting_for_response` becomes false, the sent message id is cleared, every
other field is kept, and the iteration skips the trailing sleep (the
`continue`), so the loop immediately re-evaluates sending; hence a WAITING
state never survives an iteration once twice the interval has elapsed. -/
theorem waiting_timeout_resets (numQuestions : Nat) (d : ServiceData) (now : Int)
    (intervalMinutes : Int) (chosen : Nat × String × String)
    (sendResult : Except String (String × String)) (tsFetch : Option Int)
    (response : Option String) (graderOutcome : Except String JDict)
    (fbSend : Except String String) (nowIso : String) (t : Int)
    (hw : d.state.waiting_for_response = true)
    (ht : d.state.last_question_time = some t)
    (helapsed : intervalMinutes * 2 * 60000 ≤ now - t) :
    runIteration numQuestions d now intervalMinutes chosen sendResult tsFetch
        response graderOutcome fbSend nowIso
      = ({ d with state := { d.state with
            waiting_for_response := false, sent_message_id := none } }, false) := by
  simp [runIteration, hw, ht, helapsed]

/-- Witness for C7: the spec's scenario — a 10-minute interval, a send 21
minutes in the past. -/
theorem waiting_timeout_resets_witness :
    runIteration 3
        ⟨⟨some "q?", some "a!", some 0, some "t", some "m", some 0, some 0, true, [], []⟩,
          fun _ => [], []⟩
        1260000 10 (0, "q", "a") (Except.error "no send") none none
        (Except.error "no grade") (Except.error "no fb") "2026-01-01"
      = (⟨⟨some "q?", some "a!", some 0, some "t", none, some 0, some 0, false, [], []⟩,
          fun _ => [], []⟩, false) :=
  waiting_timeout_resets 3 _ 1260000 10 (0, "q", "a") (Except.error "no send") none
    none (Except.error "no grade") (Except.error "no fb") "2026-01-01" 0
    rfl rfl (by decide)

/-! ## Persisted files (`main.py`, `config.py`) -/

/-- The three persisted stores: the state file, the score-ledger file and
the progress-log file. `none` models an absent file; the progress file
holds the serialized entry list, the other two their raw contents. -/
structure Files where
  stateFile : Option String
  scoresFile : Option String
  progressFile : Option (List ProgressEntry)
deriving DecidableEq, Repr

/-- The file-writing operations of the program: the `--reset` startup action
(`main.py` lines 24-31, removing the state and scores files), `_save_state`
(lines 182-199), `_save_scores` (lines 134-137) and `_record_progress`
(lines 155-167) — the only writer of the progress file, which appends one
entry to the in-memory history and rewrites the file with it. -/
inductive FileOp where
  | reset
  | saveState (s : String)
  | saveScores (s : String)
  | recordProgress (e : ProgressEntry)

/-- Effect of each file-writing operation on the stores. -/
def applyFileOp : FileOp → Files → Files
  | FileOp.reset, f => { f with stateFile := none, scoresFile := none }
  | FileOp.saveState s, f => { f with stateFile := some s }
  | FileOp.saveScores s, f => { f with scoresFile := some s }
  | FileOp.recordProgress e, f =>
      { f with progressFile := some ((f.progressFile.getD []) ++ [e]) }

/-- C8: the reset operation removes the state file and the score-ledger file
and leaves the progress-log file unchanged; and no file-writing operation of
the program ever truncates or clears the progress log — every operation
leaves the existing entries as a prefix, appending at most one entry. -/
theorem reset_preserves_progress :
    (∀ f : Files, (applyFileOp FileOp.reset f).stateFile = none
      ∧ (applyFileOp FileOp.reset f).scoresFile = none
      ∧ (applyFileOp FileOp.reset f).progressFile = f.progressFile)
    ∧ (∀ (op : FileOp) (f : Files), ∃ t : List ProgressEntry,
        (applyFileOp op f).progressFile.getD [] = (f.progressFile.getD []) ++ t) := by
  constructor
  · intro f
    exact ⟨rfl, rfl, rfl⟩
  · intro op f
    cases op with
    | reset => exact ⟨[], by simp [applyFileOp]⟩
    | saveState s => exact ⟨[], by simp [applyFileOp]⟩
    | saveScores s => exact ⟨[], by simp [applyFileOp]⟩
    | recordProgress e => exact ⟨[e], by simp [applyFileOp]⟩

end WtfGalaxy
